import Mathlib

set_option maxHeartbeats 1000000

/- Shallow embedding of notebooks/helpers.py (PhaseLookupCalculator) and
   notebooks/interactive_proposal.py (PointSelector, select_points) from the
   dased_paper repository.  Machine floats are modelled as exact rationals;
   the netCDF and pickle round trips of the external libraries are modelled
   as exact storage of the in-memory value, and the external pyrocko ray
   tracer (model.arrivals) is a parameter of the embedded computation. -/

/-- Negation on ℚ by a kernel-reducible computation.  The library field
operations on ℚ are irreducible, so the embedding computes with these
wrappers, each proven equal to the corresponding field operation below. -/
def qneg (a : ℚ) : ℚ := mkRat (-a.num) a.den

/-- Addition on ℚ by a kernel-reducible computation. -/
def qadd (a b : ℚ) : ℚ := mkRat (a.num * b.den + b.num * a.den) (a.den * b.den)

/-- Subtraction on ℚ by a kernel-reducible computation. -/
def qsub (a b : ℚ) : ℚ := mkRat (a.num * b.den - b.num * a.den) (a.den * b.den)

/-- Multiplication on ℚ by a kernel-reducible computation. -/
def qmul (a b : ℚ) : ℚ := mkRat (a.num * b.num) (a.den * b.den)

/-- Division on ℚ by a kernel-reducible computation, with qdiv a 0 = 0 as for
the field division on ℚ. -/
def qdiv (a b : ℚ) : ℚ := Rat.divInt (a.num * b.den) (a.den * b.num)

/-- Absolute value on ℚ by a kernel-reducible computation. -/
def qabs (a : ℚ) : ℚ := if a < 0 then qneg a else a

/-- Floor on ℚ by a kernel-reducible computation (integer division on ℤ is
euclidean, hence floor division for the positive denominator). -/
def qfloor (a : ℚ) : ℤ := a.num / a.den





/-- Python float modulo x % m, that is x - m * floor (x / m) for m different
from 0.  Used by helpers.py line 104: (a.incidence_angle()) % 180. -/
def pymod (x m : ℚ) : ℚ := qsub x (qmul m ((qfloor (qdiv x m) : ℤ) : ℚ))

/-- Round to the nearest integer with ties to even, the rounding performed by
Python float formatting (helpers.py line 35 formats lat and lon with two
decimals).  Exact decimal ties only arise from dyadic values in binary
floating point, where ties-to-even on the exact rational agrees with the
float formatter. -/
def roundHalfEven (q : ℚ) : ℤ :=
  let f := qfloor q
  let r := qsub q (f : ℚ)
  if r < mkRat 1 2 then f
  else if mkRat 1 2 < r then f + 1
  else if f % 2 = 0 then f else f + 1

/-- Two-decimal rounding of a coordinate as a number (spec-side notion used by
claim C10: coordinates that agree after two-decimal rounding). -/
def round2 (q : ℚ) : ℚ := qdiv ((roundHalfEven (qmul q 100) : ℤ) : ℚ) 100

/-- Python two-decimal formatting of a float value.  The sign is taken from
the value itself, so a negative value whose magnitude rounds to zero prints
as -0.00; the absolute rounded value is printed with exactly two fractional
digits. -/
def fmt2 (q : ℚ) : String :=
  let n := roundHalfEven (qmul q 100)
  let sign := if q < 0 then "-" else ""
  let a := n.natAbs
  let frac := a % 100
  sign ++ toString (a / 100) ++ "." ++ (if frac < 10 then "0" else "") ++ toString frac

/-- One arrival as returned by the external pyrocko ray tracer
(model.arrivals, helpers.py lines 92-97): x is the distance in degrees, t the
travel time, together with the incidence angle, takeoff angle and
efficiency reported by the tracer. -/
structure Arrival where
  x : ℚ
  t : ℚ
  incidence : ℚ
  takeoff : ℚ
  efficiency : ℚ
  deriving DecidableEq

/-- Degrees-to-metres factor cake.d2m of the external library, an exact
rational standing in for the library float constant; m2d is its inverse. -/
def d2m : ℚ := mkRat 1111949266445587 10000000000

def m2d : ℚ := qdiv 1 d2m

/-- One row of the per-pair DataFrame built in helpers.py lines 98-110:
distance is a.x * cake.d2m, arrival_time is abs(a.t), the incidence angle is
reduced modulo 180 and the takeoff angle and efficiency are kept as
reported.  The phase column never participates in the later computation and
is omitted. -/
structure Row where
  distance : ℚ
  arrival_time : ℚ
  incidence_angle : ℚ
  takeoff_angle : ℚ
  efficiency : ℚ
  deriving DecidableEq

def mkRow (a : Arrival) : Row :=
  { distance := qmul a.x d2m,
    arrival_time := qabs a.t,
    incidence_angle := pymod a.incidence 180,
    takeoff_angle := a.takeoff,
    efficiency := a.efficiency }

/-- Insert a key into an ascending-sorted list of keys. -/
def insertSorted (d : ℚ) : List ℚ → List ℚ
  | [] => [d]
  | e :: l => if d ≤ e then d :: e :: l else e :: insertSorted d l

/-- The distinct distance values in ascending order: the group keys produced
by the pandas groupby in helpers.py line 113, which sorts group keys. -/
def sortedKeys (l : List ℚ) : List ℚ := l.dedup.foldr insertSorted []

/-- pandas Series.idxmin followed by the df.loc row selection inside one
distance group: the first row attaining the minimal arrival_time (idxmin is
documented as the index of the first occurrence of the minimum). -/
def idxminRow (l : List Row) : Option Row :=
  l.find? (fun r => l.all (fun s => decide (r.arrival_time ≤ s.arrival_time)))

/-- helpers.py line 113, df.loc of the per-distance idxmin: one row per
distinct distance value, in ascending distance order. -/
def dfSelect (rows : List Row) : List Row :=
  (sortedKeys (rows.map Row.distance)).filterMap
    (fun d => idxminRow (rows.filter (fun r => decide (r.distance = d))))

/-- The lookup table of helpers.py lines 61-85.  A cell value of none models
the NaN fill of the initial np.full arrays; a cell carrying a row holds the
four quantities written from that row.  The source stores four separate
(receiver_depth, distance, source_depth) arrays that are always written from
the same selected rows, so a slice is stored here as
slices[recIdx][srcIdx] : the vector over the distance axis for one
(receiver depth, source depth) pair. -/
structure Dataset where
  receiver_depth : List ℚ
  distance : List ℚ
  source_depth : List ℚ
  slices : List (List (List (Option Row)))
  deriving DecidableEq

/-- The cell of the dataset at (receiver index, distance index, source index),
in the index order of the source arrays; none means out of bounds, some none
means the NaN fill value. -/
def Dataset.cell (ds : Dataset) (recIdx distIdx srcIdx : Nat) : Option (Option Row) :=
  ((ds.slices[recIdx]?).bind (fun a => a[srcIdx]?)).bind (fun v => v[distIdx]?)

/-- The body of the inner loop of _calculate_lookup (helpers.py lines 92-120)
for one (receiver depth, source depth) pair.  An empty arrival list yields an
empty DataFrame without columns, so the groupby raises KeyError, which is
caught: the slice keeps its NaN fill.  Otherwise the selected rows are
assigned into the full distance-axis slice with numpy broadcasting rules: a
matching length assigns positionally, a single row broadcasts into every
cell, and any other length raises an uncaught ValueError. -/
def pairSlice (n : Nat) (arrivals : List Arrival) : Except String (List (Option Row)) :=
  match arrivals with
  | [] => .ok (List.replicate n none)
  | _ :: _ =>
    let sel := dfSelect (arrivals.map mkRow)
    if sel.length = n then .ok (sel.map some)
    else
      match sel with
      | [r] => .ok (List.replicate n (some r))
      | _ => .error "ValueError could not broadcast input array"

/-- Sequencing of a fallible computation over a list, propagating the first
uncaught exception, as the nested for loops of helpers.py lines 86-120 do. -/
def mapExcept {α β : Type} (f : α → Except String β) : List α → Except String (List β)
  | [] => .ok []
  | a :: l =>
    match f a with
    | .error e => .error e
    | .ok b =>
      match mapExcept f l with
      | .error e => .error e
      | .ok bs => .ok (b :: bs)

def exOk {α : Type} : Except String α → Bool
  | .ok _ => true
  | .error _ => false

/-- The constructor state of helpers.py lines 12-31: the location, the three
grid axes and the cache directory.  The cake velocity model built from
(lat, lon) is external and enters only through the tracer parameter. -/
structure PhaseLookupCalculator where
  lat : ℚ
  lon : ℚ
  distance_grid : List ℚ
  source_depth_grid : List ℚ
  receiver_depth_grid : List ℚ
  data_dir : String
  deriving DecidableEq

/-- helpers.py lines 33-36: the cache file name built from the group name and
the two-decimal formatted latitude and longitude. -/
def PhaseLookupCalculator.filename (c : PhaseLookupCalculator) (group : String) : String :=
  c.data_dir ++ "/" ++ group ++ "_lookup_" ++ fmt2 c.lat ++ "_" ++ fmt2 c.lon ++ ".nc"

/-- helpers.py lines 55-121, _calculate_lookup.  The tracer parameter stands
for the external self.model.arrivals call; it receives the requested
distances (distance_grid * cake.m2d), zstart = source depth and
zstop = receiver depth, and returns the arrivals. -/
def PhaseLookupCalculator.calculate_lookup (c : PhaseLookupCalculator)
    (tracer : List ℚ → ℚ → ℚ → List Arrival) : Except String Dataset :=
  let n := c.distance_grid.length
  let req := c.distance_grid.map (fun x => qmul x m2d)
  match mapExcept (fun rec_depth =>
      mapExcept (fun src_depth => pairSlice n (tracer req src_depth rec_depth))
        c.source_depth_grid)
    c.receiver_depth_grid with
  | .error e => .error e
  | .ok slices =>
    .ok { receiver_depth := c.receiver_depth_grid, distance := c.distance_grid,
          source_depth := c.source_depth_grid, slices := slices }

/-- The outcome of __call__: the group-to-dataset results in insertion order,
the file system state, and how many times _calculate_lookup was invoked. -/
structure CallOut where
  results : List (String × Dataset)
  fs : String → Option Dataset
  computeCount : Nat

/-- Writing one netCDF cache file (to_netcdf, helpers.py line 52), modelled
as exact storage of the dataset under its file name. -/
def fsUpdate (fs : String → Option Dataset) (name : String) (d : Dataset) :
    String → Option Dataset :=
  fun s => if s = name then some d else fs s

/-- helpers.py lines 38-53, __call__.  For each group in order: if the cache
file exists it is opened and returned, otherwise the lookup is computed,
stored in the results and written to the cache file.  The tracer takes the
phase list of the group (the external PhaseDef construction and arrivals
call), then the requested distances and the two depths. -/
def PhaseLookupCalculator.call (c : PhaseLookupCalculator)
    (tracer : List String → List ℚ → ℚ → ℚ → List Arrival) :
    List (String × List String) → (String → Option Dataset) → Except String CallOut
  | [], fs => .ok { results := [], fs := fs, computeCount := 0 }
  | (group, phases) :: rest, fs =>
    match fs (c.filename group) with
    | some d =>
      match c.call tracer rest fs with
      | .error e => .error e
      | .ok out =>
        .ok { results := (group, d) :: out.results, fs := out.fs,
              computeCount := out.computeCount }
    | none =>
      match c.calculate_lookup (tracer phases) with
      | .error e => .error e
      | .ok d =>
        match c.call tracer rest (fsUpdate fs (c.filename group) d) with
        | .error e => .error e
        | .ok out =>
          .ok { results := (group, d) :: out.results, fs := out.fs,
                computeCount := out.computeCount + 1 }

/-- Spec-side helper for claim C1: the datasets stored in the cache for every
requested group, in request order; none when some group has no cache file. -/
def loadAll (c : PhaseLookupCalculator) (fs : String → Option Dataset) :
    List (String × List String) → Option (List (String × Dataset))
  | [] => some []
  | (group, _) :: rest =>
    match fs (c.filename group) with
    | none => none
    | some d =>
      match loadAll c fs rest with
      | none => none
      | some rs => some ((group, d) :: rs)

/-- A polyline of the interactive selector: a list of [x, y] points. -/
abbrev Polyline := List (ℚ × ℚ)

/-- The selection state of interactive_proposal.py PointSelector: the
finished lines, the line being drawn, the color index of the line being
drawn, and the result stored by the close handler. -/
structure PointSelector where
  selected_points : List Polyline
  current_line : Polyline
  current_line_index : Nat
  result : Option (List Polyline)
  deriving DecidableEq

/-- interactive_proposal.py lines 155-178: a click inside the axes appends
the point to the line being drawn. -/
def PointSelector.on_click (s : PointSelector) (x y : ℚ) : PointSelector :=
  { s with current_line := s.current_line ++ [(x, y)] }

/-- interactive_proposal.py lines 184-191: a nonempty current line is moved
into the finished lines and the color index advances; an empty current line
is left alone. -/
def PointSelector.finish_line (s : PointSelector) : PointSelector :=
  if s.current_line.isEmpty then s
  else
    { s with selected_points := s.selected_points ++ [s.current_line],
             current_line := [],
             current_line_index := s.current_line_index + 1 }

/-- interactive_proposal.py lines 180-182: starting a new line finishes the
current one when it is nonempty. -/
def PointSelector.new_line (s : PointSelector) : PointSelector :=
  if s.current_line.isEmpty then s else s.finish_line

/-- interactive_proposal.py lines 193-229: clearing the current line empties
it and leaves the finished lines and the color index unchanged. -/
def PointSelector.clear_current_line (s : PointSelector) : PointSelector :=
  if s.current_line.isEmpty then s else { s with current_line := [] }

/-- interactive_proposal.py lines 231-239. -/
def PointSelector.clear_all (s : PointSelector) : PointSelector :=
  { s with selected_points := [], current_line := [], current_line_index := 0 }

/-- interactive_proposal.py lines 52-62, the close handler: a nonempty
current line is appended to the finished lines, then the result is set to a
copy of the finished lines. -/
def PointSelector.on_close (s : PointSelector) : PointSelector :=
  let sel := if s.current_line.isEmpty then s.selected_points
             else s.selected_points ++ [s.current_line]
  { s with selected_points := sel, result := some sel }

/-- interactive_proposal.py lines 64-66. -/
def PointSelector.get_result (s : PointSelector) : Option (List Polyline) := s.result

/-- The pickle file system seen by select_points: for each path, none when no
file exists, some none for a file whose unpickling raises, and some (some v)
for a file storing the polyline list v. -/
abbrev PickleFS := String → Option (Option (List Polyline))

/-- The observable outcome of select_points: the returned polylines, the file
system afterwards, whether the interactive session ran, and whether a load
or save diagnostic was printed. -/
structure SelectOut where
  points : List Polyline
  fs : PickleFS
  ranSession : Bool
  loadDiagnostic : Bool
  saveDiagnostic : Bool

/-- pickle.dump to a path, modelled as exact storage of the value. -/
def pickleUpdate (fs : PickleFS) (name : String) (v : List Polyline) : PickleFS :=
  fun s => if s = name then some (some v) else fs s

/-- interactive_proposal.py lines 292-309: run the blocking selector session,
then save when a file name was supplied and the result is nonempty; a save
failure prints a diagnostic and the in-memory result is returned anyway. -/
def sessionAndSave (name : String) (session : List Polyline) (saveOk : Bool)
    (fs : PickleFS) (loadDiag : Bool) : SelectOut :=
  if session.isEmpty then
    { points := session, fs := fs, ranSession := true,
      loadDiagnostic := loadDiag, saveDiagnostic := false }
  else if saveOk then
    { points := session, fs := pickleUpdate fs name session, ranSession := true,
      loadDiagnostic := loadDiag, saveDiagnostic := false }
  else
    { points := session, fs := fs, ranSession := true,
      loadDiagnostic := loadDiag, saveDiagnostic := true }

/-- interactive_proposal.py lines 258-309, select_points.  The session
parameter is the polyline list the interactive PointSelector would produce
on this run, and saveOk tells whether a pickle.dump at the path would
succeed; both are external to the function. -/
def select_points (fname : Option String) (session : List Polyline) (saveOk : Bool)
    (fs : PickleFS) : SelectOut :=
  match fname with
  | none =>
    { points := session, fs := fs, ranSession := true,
      loadDiagnostic := false, saveDiagnostic := false }
  | some name =>
    match fs name with
    | some (some pts) =>
      { points := pts, fs := fs, ranSession := false,
        loadDiagnostic := false, saveDiagnostic := false }
    | some none => sessionAndSave name session saveOk fs true
    | none => sessionAndSave name session saveOk fs false

/-- Decidable equality of exception results with decidable components. -/
instance {ε α : Type} [DecidableEq ε] [DecidableEq α] : DecidableEq (Except ε α) := fun x y =>
  match x, y with
  | .error a, .error b =>
    if h : a = b then isTrue (by rw [h]) else isFalse (fun hh => by cases hh; exact h rfl)
  | .error _, .ok _ => isFalse (fun hh => by cases hh)
  | .ok _, .error _ => isFalse (fun hh => by cases hh)
  | .ok a, .ok b =>
    if h : a = b then isTrue (by rw [h]) else isFalse (fun hh => by cases hh; exact h rfl)

/-- The rows the per-pair DataFrame holds for one (source depth, receiver
depth) pair: one row per arrival the tracer reports for the requested
distances. -/
def rowsFor (tracer : List ℚ → ℚ → ℚ → List Arrival) (c : PhaseLookupCalculator)
    (sd rd : ℚ) : List Row :=
  (tracer (c.distance_grid.map (fun x => qmul x m2d)) sd rd).map mkRow

/-- The rows of one pair whose distance equals a given grid distance value. -/
def rowsAt (tracer : List ℚ → ℚ → ℚ → List Arrival) (c : PhaseLookupCalculator)
    (sd rd dk : ℚ) : List Row :=
  (rowsFor tracer c sd rd).filter (fun q => decide (q.distance = dk))

/- Concrete fixtures used by the claim witnesses and counterexamples. -/

/-- Fixture: an arrival whose x is chosen so that the derived row distance is
exactly dist (x * d2m = dist). -/
def arrAt (dist t inc toff eff : ℚ) : Arrival :=
  { x := qdiv dist d2m, t := t, incidence := inc, takeoff := toff, efficiency := eff }

/-- Fixture: three grid distances, arrivals at only two of them. -/
def cTwoOfThree : PhaseLookupCalculator :=
  { lat := 0, lon := 0, distance_grid := [1000, 2000, 3000],
    source_depth_grid := [500], receiver_depth_grid := [0], data_dir := "data" }

def trTwoOfThree : List ℚ → ℚ → ℚ → List Arrival :=
  fun _ _ _ => [arrAt 1000 1 10 20 1, arrAt 2000 2 10 20 1]

/-- Fixture: two grid distances, an arrival at only one of them. -/
def cOneOfTwo : PhaseLookupCalculator :=
  { lat := 0, lon := 0, distance_grid := [1000, 2000],
    source_depth_grid := [500], receiver_depth_grid := [0], data_dir := "data" }

def trOneOfTwo : List ℚ → ℚ → ℚ → List Arrival :=
  fun _ _ _ => [arrAt 1000 5 10 20 1]

def rowOneOfTwo : Row := mkRow (arrAt 1000 5 10 20 1)

def dsOneOfTwo : Dataset :=
  { receiver_depth := [0], distance := [1000, 2000], source_depth := [500],
    slices := [[[some rowOneOfTwo, some rowOneOfTwo]]] }

/-- Fixture: two grid distances, several arrivals with a tie-free minimum at
each distance. -/
def cMinSel : PhaseLookupCalculator :=
  { lat := 0, lon := 0, distance_grid := [100, 200],
    source_depth_grid := [50], receiver_depth_grid := [0], data_dir := "data" }

def trMinSel : List ℚ → ℚ → ℚ → List Arrival :=
  fun _ _ _ => [arrAt 200 7 10 20 1, arrAt 100 5 30 40 2, arrAt 100 3 50 60 3]

def dsMinSel : Dataset :=
  { receiver_depth := [0], distance := [100, 200], source_depth := [50],
    slices := [[[some (mkRow (arrAt 100 3 50 60 3)), some (mkRow (arrAt 200 7 10 20 1))]]] }

/-- Fixture: a pair with no arrivals at all next to a pair with arrivals. -/
def cEmptyPair : PhaseLookupCalculator :=
  { lat := 0, lon := 0, distance_grid := [100],
    source_depth_grid := [5, 6], receiver_depth_grid := [0], data_dir := "data" }

def trEmptyPair : List ℚ → ℚ → ℚ → List Arrival :=
  fun _ sd _ => if sd = 5 then [] else [arrAt 100 1 10 20 1]

/-- Fixture: caching calculator with a one-cell grid. -/
def cCache : PhaseLookupCalculator :=
  { lat := 1, lon := 2, distance_grid := [100],
    source_depth_grid := [5], receiver_depth_grid := [0], data_dir := "data" }

def trCache : List String → List ℚ → ℚ → ℚ → List Arrival :=
  fun _ _ _ _ => [arrAt 100 1 10 20 1]

def dsCache : Dataset :=
  { receiver_depth := [0], distance := [100], source_depth := [5],
    slices := [[[some (mkRow (arrAt 100 1 10 20 1))]]] }

def pgsCache : List (String × List String) := [("p", ["p", "P"])]

def fsEmpty : String → Option Dataset := fun _ => none

def fsCacheHit : String → Option Dataset :=
  fun s => if s = "data/p_lookup_1.00_2.00.nc" then some dsCache else none

def outCache : CallOut :=
  { results := [("p", dsCache)],
    fs := fsUpdate fsEmpty (cCache.filename "p") dsCache,
    computeCount := 1 }

/-- Fixture: positive and negative coordinates that agree after two-decimal
rounding but format with different signs. -/
def cSignedZero : PhaseLookupCalculator :=
  { lat := mkRat 1 1000, lon := 2, distance_grid := [100],
    source_depth_grid := [5], receiver_depth_grid := [0], data_dir := "data" }

def cSignedZeroNeg : PhaseLookupCalculator :=
  { lat := mkRat (-1) 1000, lon := 2, distance_grid := [100],
    source_depth_grid := [5], receiver_depth_grid := [0], data_dir := "data" }

/-- Fixture: two calculators with different exact coordinates and different
grid axes whose coordinates format identically with two decimals. -/
def cRoundA : PhaseLookupCalculator :=
  { lat := mkRat 1001 1000, lon := 2, distance_grid := [100],
    source_depth_grid := [5], receiver_depth_grid := [0], data_dir := "data" }

def cRoundB : PhaseLookupCalculator :=
  { lat := mkRat 1004 1000, lon := 2, distance_grid := [100, 200],
    source_depth_grid := [7], receiver_depth_grid := [3], data_dir := "data" }

def fsRoundCache : String → Option Dataset :=
  fun s => if s = cRoundA.filename "p" then some dsCache else none

/-- Fixtures for the point selector persistence. -/
def fsPickleLoaded : PickleFS :=
  fun s => if s = "route.pkl" then some (some [[(1, 2), (3, 4)]]) else none

def fsPickleCorrupt : PickleFS :=
  fun s => if s = "route.pkl" then some none else none

def fsPickleEmpty : PickleFS := fun _ => none

/-- Fixture: an ascending grid and a pair whose arrivals sit at 500 (not a
grid distance, time 9) and at the grid distance 1000 (time 3). -/
def cMisaligned : PhaseLookupCalculator :=
  { lat := 0, lon := 0, distance_grid := [1000, 2000],
    source_depth_grid := [500], receiver_depth_grid := [0], data_dir := "data" }

def trMisaligned : List ℚ → ℚ → ℚ → List Arrival :=
  fun _ _ _ => [arrAt 500 9 10 20 1, arrAt 1000 3 30 40 2]

def dsMisaligned : Dataset :=
  { receiver_depth := [0], distance := [1000, 2000], source_depth := [500],
    slices := [[[some (mkRow (arrAt 500 9 10 20 1)),
                 some (mkRow (arrAt 1000 3 30 40 2))]]] }

/-- Fixture: a descending grid with one arrival at each grid distance. -/
def cSwapped : PhaseLookupCalculator :=
  { lat := 0, lon := 0, distance_grid := [2000, 1000],
    source_depth_grid := [500], receiver_depth_grid := [0], data_dir := "data" }

def trSwapped : List ℚ → ℚ → ℚ → List Arrival :=
  fun _ _ _ => [arrAt 2000 4 10 20 1, arrAt 1000 6 30 40 2]

def dsSwapped : Dataset :=
  { receiver_depth := [0], distance := [2000, 1000], source_depth := [500],
    slices := [[[some (mkRow (arrAt 1000 6 30 40 2)),
                 some (mkRow (arrAt 2000 4 10 20 1))]]] }

/- Equality of the kernel-reducible arithmetic wrappers with the field
   operations on ℚ, used to transfer between computation and reasoning. -/

theorem qneg_eq (a : ℚ) : qneg a = -a := by
  rw [qneg, Rat.mkRat_eq_div]
  push_cast
  rw [neg_div, Rat.num_div_den]

theorem qadd_eq (a b : ℚ) : qadd a b = a + b := by
  have ha : (a.den : ℚ) ≠ 0 := Nat.cast_ne_zero.mpr a.den_nz
  have hb : (b.den : ℚ) ≠ 0 := Nat.cast_ne_zero.mpr b.den_nz
  rw [qadd, Rat.mkRat_eq_div]
  push_cast
  conv_rhs => rw [← Rat.num_div_den a, ← Rat.num_div_den b]
  rw [div_add_div _ _ ha hb]
  congr 1
  ring

theorem qsub_eq (a b : ℚ) : qsub a b = a - b := by
  have ha : (a.den : ℚ) ≠ 0 := Nat.cast_ne_zero.mpr a.den_nz
  have hb : (b.den : ℚ) ≠ 0 := Nat.cast_ne_zero.mpr b.den_nz
  rw [qsub, Rat.mkRat_eq_div]
  push_cast
  conv_rhs => rw [← Rat.num_div_den a, ← Rat.num_div_den b]
  rw [div_sub_div _ _ ha hb]
  congr 1
  ring

theorem qmul_eq (a b : ℚ) : qmul a b = a * b := by
  rw [qmul, Rat.mkRat_eq_div]
  push_cast
  conv_rhs => rw [← Rat.num_div_den a, ← Rat.num_div_den b]
  rw [div_mul_div_comm]

theorem qdiv_eq (a b : ℚ) : qdiv a b = a / b := by
  rcases eq_or_ne b 0 with rfl | hb
  · simp [qdiv, Rat.divInt_eq_div]
  · have ha : (a.den : ℚ) ≠ 0 := Nat.cast_ne_zero.mpr a.den_nz
    have hbd : (b.den : ℚ) ≠ 0 := Nat.cast_ne_zero.mpr b.den_nz
    have hbn : (b.num : ℚ) ≠ 0 := Int.cast_ne_zero.mpr (Rat.num_ne_zero.mpr hb)
    rw [qdiv, Rat.divInt_eq_div]
    push_cast
    rw [div_eq_div_iff (mul_ne_zero ha hbn) hb]
    have hA : (a.num : ℚ) = a * a.den := (div_eq_iff ha).mp (Rat.num_div_den a)
    have hB : (b.num : ℚ) = b * b.den := (div_eq_iff hbd).mp (Rat.num_div_den b)
    rw [hA, hB]
    ring

theorem qabs_eq (a : ℚ) : qabs a = |a| := by
  rw [qabs]
  rcases lt_or_le a 0 with h | h
  · rw [if_pos h, qneg_eq, abs_of_neg h]
  · rw [if_neg (not_lt.mpr h), abs_of_nonneg h]

theorem qfloor_eq (a : ℚ) : qfloor a = ⌊a⌋ := Rat.floor_def.symm

theorem pymod_eq (x m : ℚ) : pymod x m = x - m * ⌊x / m⌋ := by
  rw [pymod, qsub_eq, qmul_eq, qdiv_eq, qfloor_eq]

/- General helper lemmas about the list and exception combinators used by the
   embedding. -/

theorem mem_of_getElemOpt {α : Type} {l : List α} {i : Nat} {a : α}
    (h : l[i]? = some a) : a ∈ l := by
  obtain ⟨hlt, rfl⟩ := List.getElem?_eq_some.mp h
  exact List.getElem_mem hlt

theorem mapExcept_ok_getElem {α β : Type} (f : α → Except String β) (l : List α) :
    ∀ (ys : List β), mapExcept f l = .ok ys →
      ∀ (i : Nat) (a : α), l[i]? = some a → ∃ b, ys[i]? = some b ∧ f a = .ok b := by
  induction l with
  | nil => intro ys _ i a hi; simp at hi
  | cons x l ih =>
    intro ys h i a hi
    rw [mapExcept] at h
    cases hfx : f x with
    | error e => rw [hfx] at h; cases h
    | ok b =>
      rw [hfx] at h
      cases hml : mapExcept f l with
      | error e => rw [hml] at h; cases h
      | ok bs =>
        rw [hml] at h
        injection h with h
        subst h
        cases i with
        | zero =>
          simp at hi
          subst hi
          exact ⟨b, by simp, hfx⟩
        | succ j =>
          simp at hi ⊢
          exact ih bs hml j a hi

theorem mapExcept_ok_getElem_out {α β : Type} (f : α → Except String β) (l : List α) :
    ∀ (ys : List β), mapExcept f l = .ok ys →
      ∀ (i : Nat) (b : β), ys[i]? = some b → ∃ a, l[i]? = some a ∧ f a = .ok b := by
  induction l with
  | nil =>
    intro ys h i b hi
    rw [mapExcept] at h
    injection h with h
    subst h
    simp at hi
  | cons x l ih =>
    intro ys h i b hi
    rw [mapExcept] at h
    cases hfx : f x with
    | error e => rw [hfx] at h; cases h
    | ok b0 =>
      rw [hfx] at h
      cases hml : mapExcept f l with
      | error e => rw [hml] at h; cases h
      | ok bs =>
        rw [hml] at h
        injection h with h
        subst h
        cases i with
        | zero =>
          simp at hi
          subst hi
          exact ⟨x, by simp, hfx⟩
        | succ j =>
          simp at hi ⊢
          exact ih bs hml j b hi

theorem mapExcept_ok_of_forall {α β : Type} (f : α → Except String β) (l : List α)
    (h : ∀ a ∈ l, ∃ b, f a = .ok b) : ∃ ys, mapExcept f l = .ok ys := by
  induction l with
  | nil => exact ⟨[], rfl⟩
  | cons x l ih =>
    obtain ⟨b, hb⟩ := h x (by simp)
    obtain ⟨ys, hys⟩ := ih (fun a ha => h a (by simp [ha]))
    exact ⟨b :: ys, by rw [mapExcept, hb, hys]⟩

theorem find?_eq_some_spec {α : Type} (p : α → Bool) (l : List α) :
    ∀ (r : α), l.find? p = some r →
      p r = true ∧ ∃ i : Nat, l[i]? = some r ∧
        ∀ (k : Nat) (x : α), k < i → l[k]? = some x → p x = false := by
  induction l with
  | nil => intro r h; simp at h
  | cons a l ih =>
    intro r h
    rw [List.find?] at h
    cases hpa : p a with
    | true =>
      rw [hpa] at h
      injection h with h
      subst h
      refine ⟨hpa, 0, by simp, ?_⟩
      intro k x hk
      exact absurd hk (Nat.not_lt_zero k)
    | false =>
      rw [hpa] at h
      obtain ⟨hp, i, hi, hfirst⟩ := ih r h
      refine ⟨hp, i + 1, by simpa using hi, ?_⟩
      intro k x hk hx
      cases k with
      | zero =>
        simp at hx
        subst hx
        exact hpa
      | succ j =>
        simp at hx
        exact hfirst j x (by omega) hx

theorem exists_min_arrival_time (l : List Row) :
    l ≠ [] → ∃ r ∈ l, ∀ s ∈ l, r.arrival_time ≤ s.arrival_time := by
  induction l with
  | nil => intro h; exact absurd rfl h
  | cons a l ih =>
    intro _
    rcases eq_or_ne l [] with rfl | hl
    · exact ⟨a, by simp, by simp⟩
    · obtain ⟨r, hr, hmin⟩ := ih hl
      rcases le_total a.arrival_time r.arrival_time with hle | hle
      · refine ⟨a, by simp, ?_⟩
        intro s hs
        rcases List.mem_cons.mp hs with rfl | hs
        · exact le_refl _
        · exact le_trans hle (hmin s hs)
      · refine ⟨r, by simp [hr], ?_⟩
        intro s hs
        rcases List.mem_cons.mp hs with rfl | hs
        · exact hle
        · exact hmin s hs

theorem idxminRow_isSome {l : List Row} (h : l ≠ []) : ∃ r, idxminRow l = some r := by
  obtain ⟨r, hr, hmin⟩ := exists_min_arrival_time l h
  rw [idxminRow]
  have hex : ∃ x, x ∈ l ∧
      (l.all (fun s => decide (x.arrival_time ≤ s.arrival_time))) = true := by
    refine ⟨r, hr, ?_⟩
    rw [List.all_eq_true]
    intro s hs
    exact decide_eq_true (hmin s hs)
  have := List.find?_isSome.mpr hex
  exact Option.isSome_iff_exists.mp this

theorem pymod_bounds {m : ℚ} (hm : 0 < m) (x : ℚ) :
    0 ≤ pymod x m ∧ pymod x m < m := by
  rw [pymod_eq]
  have hfr : x - m * ⌊x / m⌋ = m * Int.fract (x / m) := by
    rw [Int.fract]
    field_simp
  rw [hfr]
  constructor
  · exact mul_nonneg hm.le (Int.fract_nonneg _)
  · calc m * Int.fract (x / m) < m * 1 :=
        mul_lt_mul_of_pos_left (Int.fract_lt_one _) hm
    _ = m := mul_one m

theorem replicate_getElem_eq {α : Type} (a : α) :
    ∀ (n i : Nat) (b : α), (List.replicate n a)[i]? = some b → b = a := by
  intro n
  induction n with
  | zero => intro i b h; simp at h
  | succ m ih =>
    intro i b h
    rw [List.replicate] at h
    cases i with
    | zero => simp at h; exact h.symm
    | succ j => simp at h; exact ih j b (by simpa using h)

theorem replicate_getElem_lt {α : Type} (a : α) :
    ∀ (n i : Nat), i < n → (List.replicate n a)[i]? = some a := by
  intro n
  induction n with
  | zero => intro i h; exact absurd h (Nat.not_lt_zero i)
  | succ m ih =>
    intro i h
    rw [List.replicate]
    cases i with
    | zero => simp
    | succ j => simpa using ih j (by omega)

theorem mem_insertSorted {x d : ℚ} :
    ∀ {l : List ℚ}, x ∈ insertSorted d l ↔ x = d ∨ x ∈ l := by
  intro l
  induction l with
  | nil => simp [insertSorted]
  | cons e l ih =>
    rw [insertSorted]
    by_cases hde : d ≤ e
    · simp [hde]
    · simp only [if_neg hde, List.mem_cons, ih]
      tauto

theorem mem_sortedKeys {x : ℚ} {l : List ℚ} : x ∈ sortedKeys l ↔ x ∈ l := by
  rw [sortedKeys]
  have : ∀ (m : List ℚ), x ∈ m.foldr insertSorted [] ↔ x ∈ m := by
    intro m
    induction m with
    | nil => simp
    | cons e m ih =>
      rw [List.foldr_cons, mem_insertSorted, ih]
      simp
  rw [this, List.mem_dedup]

theorem filterMap_all_some {α β : Type} (f : α → Option β) (l : List α)
    (h : ∀ a ∈ l, (f a).isSome = true) :
    (l.filterMap f).length = l.length ∧
      ∀ (i : Nat) (a : α), l[i]? = some a → (l.filterMap f)[i]? = f a := by
  induction l with
  | nil => exact ⟨rfl, by intro i a hi; simp at hi⟩
  | cons x l ih =>
    obtain ⟨b, hb⟩ := Option.isSome_iff_exists.mp (h x (by simp))
    obtain ⟨hlen, hidx⟩ := ih (fun a ha => h a (by simp [ha]))
    have hfm : (x :: l).filterMap f = b :: l.filterMap f := by
      rw [List.filterMap_cons, hb]
    refine ⟨by rw [hfm]; simp [hlen], ?_⟩
    intro i a hi
    cases i with
    | zero =>
      simp at hi
      subst hi
      rw [hfm]
      simp [hb]
    | succ j =>
      rw [hfm]
      simp at hi ⊢
      exact hidx j a hi

theorem dfSelect_subset {rows : List Row} {r : Row} (h : r ∈ dfSelect rows) :
    r ∈ rows := by
  rw [dfSelect] at h
  obtain ⟨dk, _, hdk⟩ := List.mem_filterMap.mp h
  have hmem := List.mem_of_find?_eq_some hdk
  exact List.mem_of_mem_filter hmem

theorem pairSlice_ok_cell {n : Nat} {arrivals : List Arrival}
    {sl : List (Option Row)} {j : Nat} {r : Row}
    (h : pairSlice n arrivals = .ok sl) (hj : sl[j]? = some (some r)) :
    r ∈ dfSelect (arrivals.map mkRow) := by
  cases arrivals with
  | nil =>
    rw [pairSlice] at h
    injection h with h
    subst h
    have := replicate_getElem_eq none n j (some r) hj
    cases this
  | cons a rest =>
    rw [pairSlice] at h
    by_cases hlen : (dfSelect ((a :: rest).map mkRow)).length = n
    · rw [if_pos hlen] at h
      injection h with h
      subst h
      have hj2 := hj
      rw [List.getElem?_map] at hj2
      cases hsel : (dfSelect ((a :: rest).map mkRow))[j]? with
      | none => rw [hsel] at hj2; cases hj2
      | some r2 =>
        rw [hsel] at hj2
        simp at hj2
        subst hj2
        exact mem_of_getElemOpt hsel
    · rw [if_neg hlen] at h
      cases hsel : dfSelect ((a :: rest).map mkRow) with
      | nil => rw [hsel] at h; cases h
      | cons r0 rest2 =>
        cases rest2 with
        | nil =>
          rw [hsel] at h
          injection h with h
          subst h
          have := replicate_getElem_eq (some r0) n j (some r) hj
          injection this with this
          subst this
          simp
        | cons r1 rest3 => rw [hsel] at h; cases h

theorem calculate_lookup_cell {c : PhaseLookupCalculator}
    {tracer : List ℚ → ℚ → ℚ → List Arrival} {ds : Dataset}
    (hok : c.calculate_lookup tracer = .ok ds)
    {ri j si : Nat} {cov : Option Row} (hcell : ds.cell ri j si = some cov) :
    ∃ rd sd sl, c.receiver_depth_grid[ri]? = some rd ∧
      c.source_depth_grid[si]? = some sd ∧
      pairSlice c.distance_grid.length
        (tracer (c.distance_grid.map (fun x => qmul x m2d)) sd rd) = .ok sl ∧
      sl[j]? = some cov := by
  rw [PhaseLookupCalculator.calculate_lookup] at hok
  cases hms : mapExcept (fun rec_depth =>
      mapExcept (fun src_depth => pairSlice c.distance_grid.length
          (tracer (c.distance_grid.map (fun x => qmul x m2d)) src_depth rec_depth))
        c.source_depth_grid)
      c.receiver_depth_grid with
  | error e => rw [hms] at hok; cases hok
  | ok slices =>
    rw [hms] at hok
    injection hok with hok
    subst hok
    rw [Dataset.cell] at hcell
    cases hA : slices[ri]? with
    | none => rw [hA] at hcell; cases hcell
    | some A =>
      rw [hA] at hcell
      simp only [Option.some_bind] at hcell
      cases hB : A[si]? with
      | none => rw [hB] at hcell; cases hcell
      | some sl =>
        rw [hB] at hcell
        simp only [Option.some_bind] at hcell
        obtain ⟨rd, hrd, hinner⟩ :=
          mapExcept_ok_getElem_out _ _ slices hms ri A hA
        obtain ⟨sd, hsd, hps⟩ :=
          mapExcept_ok_getElem_out _ _ A hinner si sl hB
        exact ⟨rd, sd, sl, hrd, hsd, hps, hcell⟩

theorem loadAll_call {c : PhaseLookupCalculator}
    (tracer : List String → List ℚ → ℚ → ℚ → List Arrival) :
    ∀ (pgs : List (String × List String)) (fs : String → Option Dataset)
      (rs : List (String × Dataset)),
      loadAll c fs pgs = some rs →
      c.call tracer pgs fs = .ok { results := rs, fs := fs, computeCount := 0 } := by
  intro pgs
  induction pgs with
  | nil =>
    intro fs rs h
    rw [loadAll] at h
    injection h with h
    subst h
    rfl
  | cons p rest ih =>
    intro fs rs h
    obtain ⟨group, phases⟩ := p
    rw [loadAll] at h
    cases hf : fs (c.filename group) with
    | none => rw [hf] at h; cases h
    | some d =>
      rw [hf] at h
      cases hrest : loadAll c fs rest with
      | none => rw [hrest] at h; cases h
      | some rs2 =>
        rw [hrest] at h
        injection h with h
        subst h
        rw [PhaseLookupCalculator.call, hf, ih fs rs2 hrest]

theorem call_fs_mono {c : PhaseLookupCalculator}
    (tracer : List String → List ℚ → ℚ → ℚ → List Arrival) :
    ∀ (pgs : List (String × List String)) (fs : String → Option Dataset)
      (out : CallOut), c.call tracer pgs fs = .ok out →
      ∀ s dd, fs s = some dd → out.fs s = some dd := by
  intro pgs
  induction pgs with
  | nil =>
    intro fs out h s dd hs
    rw [PhaseLookupCalculator.call] at h
    injection h with h
    subst h
    exact hs
  | cons p rest ih =>
    intro fs out h s dd hs
    obtain ⟨group, phases⟩ := p
    rw [PhaseLookupCalculator.call] at h
    cases hf : fs (c.filename group) with
    | some d =>
      rw [hf] at h
      cases hr : c.call tracer rest fs with
      | error e => rw [hr] at h; cases h
      | ok out2 =>
        rw [hr] at h
        injection h with h
        subst h
        exact ih fs out2 hr s dd hs
    | none =>
      rw [hf] at h
      cases hcl : c.calculate_lookup (tracer phases) with
      | error e => rw [hcl] at h; cases h
      | ok d =>
        rw [hcl] at h
        simp only [] at h
        cases hr : c.call tracer rest (fsUpdate fs (c.filename group) d) with
        | error e => rw [hr] at h; cases h
        | ok out2 =>
          rw [hr] at h
          injection h with h
          subst h
          refine ih _ out2 hr s dd ?_
          rw [fsUpdate]
          by_cases hse : s = c.filename group
          · rw [hse] at hs; rw [hs] at hf; cases hf
          · rw [if_neg hse]; exact hs

theorem call_results_in_fs {c : PhaseLookupCalculator}
    (tracer : List String → List ℚ → ℚ → ℚ → List Arrival) :
    ∀ (pgs : List (String × List String)) (fs : String → Option Dataset)
      (out : CallOut), c.call tracer pgs fs = .ok out →
      ∀ g d, (g, d) ∈ out.results → out.fs (c.filename g) = some d := by
  intro pgs
  induction pgs with
  | nil =>
    intro fs out h g d hmem
    rw [PhaseLookupCalculator.call] at h
    injection h with h
    subst h
    simp at hmem
  | cons p rest ih =>
    intro fs out h g d hmem
    obtain ⟨group, phases⟩ := p
    rw [PhaseLookupCalculator.call] at h
    cases hf : fs (c.filename group) with
    | some d0 =>
      rw [hf] at h
      cases hr : c.call tracer rest fs with
      | error e => rw [hr] at h; cases h
      | ok out2 =>
        rw [hr] at h
        injection h with h
        subst h
        rcases List.mem_cons.mp hmem with heq | hmem2
        · obtain ⟨hg, hd⟩ := Prod.mk.injEq .. ▸ heq
          subst hg
          subst hd
          exact call_fs_mono tracer rest fs out2 hr _ _ hf
        · exact ih fs out2 hr g d hmem2
    | none =>
      rw [hf] at h
      cases hcl : c.calculate_lookup (tracer phases) with
      | error e => rw [hcl] at h; cases h
      | ok d0 =>
        rw [hcl] at h
        simp only [] at h
        cases hr : c.call tracer rest (fsUpdate fs (c.filename group) d0) with
        | error e => rw [hr] at h; cases h
        | ok out2 =>
          rw [hr] at h
          injection h with h
          subst h
          rcases List.mem_cons.mp hmem with heq | hmem2
          · obtain ⟨hg, hd⟩ := Prod.mk.injEq .. ▸ heq
            subst hg
            subst hd
            refine call_fs_mono tracer rest _ out2 hr _ _ ?_
            rw [fsUpdate, if_pos rfl]
          · exact ih _ out2 hr g d hmem2

theorem call_replay {c : PhaseLookupCalculator}
    (tracer : List String → List ℚ → ℚ → ℚ → List Arrival) :
    ∀ (pgs : List (String × List String)) (fs : String → Option Dataset)
      (out : CallOut) (fs2 : String → Option Dataset),
      c.call tracer pgs fs = .ok out →
      (∀ g d, (g, d) ∈ out.results → fs2 (c.filename g) = some d) →
      c.call tracer pgs fs2 = .ok { results := out.results, fs := fs2, computeCount := 0 } := by
  intro pgs
  induction pgs with
  | nil =>
    intro fs out fs2 h hcov
    rw [PhaseLookupCalculator.call] at h
    injection h with h
    subst h
    rfl
  | cons p rest ih =>
    intro fs out fs2 h hcov
    obtain ⟨group, phases⟩ := p
    rw [PhaseLookupCalculator.call] at h
    cases hf : fs (c.filename group) with
    | some d =>
      rw [hf] at h
      cases hr : c.call tracer rest fs with
      | error e => rw [hr] at h; cases h
      | ok out2 =>
        rw [hr] at h
        injection h with h
        subst h
        have hhead : fs2 (c.filename group) = some d :=
          hcov group d (by simp)
        have htail := ih fs out2 fs2 hr
          (fun g dd hm => hcov g dd (by simp [hm]))
        rw [PhaseLookupCalculator.call, hhead, htail]
    | none =>
      rw [hf] at h
      cases hcl : c.calculate_lookup (tracer phases) with
      | error e => rw [hcl] at h; cases h
      | ok d =>
        rw [hcl] at h
        simp only [] at h
        cases hr : c.call tracer rest (fsUpdate fs (c.filename group) d) with
        | error e => rw [hr] at h; cases h
        | ok out2 =>
          rw [hr] at h
          injection h with h
          subst h
          have hhead : fs2 (c.filename group) = some d :=
            hcov group d (by simp)
          have htail := ih _ out2 fs2 hr
            (fun g dd hm => hcov g dd (by simp [hm]))
          rw [PhaseLookupCalculator.call, hhead, htail]

/- The claims. -/

/-- Claim C2 (code bug): the claim states that distance-grid cells with no
arrival hold NaN and the computation completes even when other distances of
the same pair do have arrivals.  The code instead assigns the selected rows
into the whole distance slice: with arrivals at two of three grid distances
the numpy assignment raises an uncaught ValueError, and with an arrival at
one of two grid distances the single row is broadcast, writing the
distance-1000 arrival into the distance-2000 cell instead of NaN. -/
theorem C2_missing_arrival_cells :
    cTwoOfThree.calculate_lookup trTwoOfThree =
      .error "ValueError could not broadcast input array" ∧
    cOneOfTwo.calculate_lookup trOneOfTwo = .ok dsOneOfTwo ∧
    dsOneOfTwo.cell 0 1 0 = some (some rowOneOfTwo) ∧
    rowOneOfTwo.distance = 1000 ∧ cOneOfTwo.distance_grid[1]? = some 2000 := by
  refine ⟨by decide, by decide, by decide, by decide, by decide⟩

/-- Claim C5: with a supplied path, a file that loads returns the stored
polylines without a session; a failing load emits a diagnostic and falls
back to the interactive session; a failing save emits a diagnostic and the
in-memory result is returned unchanged with the file system untouched. -/
theorem C5_select_points_persistence (name : String) (session : List Polyline)
    (saveOk : Bool) (fs : PickleFS) :
    (∀ pts, fs name = some (some pts) →
      select_points (some name) session saveOk fs =
        { points := pts, fs := fs, ranSession := false,
          loadDiagnostic := false, saveDiagnostic := false }) ∧
    (fs name = some none →
      (select_points (some name) session saveOk fs).loadDiagnostic = true ∧
      (select_points (some name) session saveOk fs).ranSession = true) ∧
    ((fs name = none ∨ fs name = some none) → saveOk = false → session ≠ [] →
      (select_points (some name) session saveOk fs).saveDiagnostic = true ∧
      (select_points (some name) session saveOk fs).points = session ∧
      (select_points (some name) session saveOk fs).fs = fs) := by
  refine ⟨?_, ?_, ?_⟩
  · intro pts h
    rw [select_points, h]
  · intro h
    rw [select_points, h]
    rw [sessionAndSave]
    split_ifs <;> exact ⟨rfl, rfl⟩
  · intro h hsave hne
    have hemp : session.isEmpty = false := by
      simp [List.isEmpty_iff, hne]
    subst hsave
    rcases h with h | h
    · rw [select_points, h]
      simp [sessionAndSave, hemp]
    · rw [select_points, h]
      simp [sessionAndSave, hemp]

/-- Claim C5 witness at concrete worlds for the three branches. -/
theorem C5_witness :
    (select_points (some "route.pkl") [] true fsPickleLoaded =
      { points := [[(1, 2), (3, 4)]], fs := fsPickleLoaded, ranSession := false,
        loadDiagnostic := false, saveDiagnostic := false }) ∧
    ((select_points (some "route.pkl") [[(5, 6)]] true fsPickleCorrupt).loadDiagnostic = true ∧
      (select_points (some "route.pkl") [[(5, 6)]] true fsPickleCorrupt).ranSession = true) ∧
    ((select_points (some "route.pkl") [[(5, 6)]] false fsPickleEmpty).saveDiagnostic = true ∧
      (select_points (some "route.pkl") [[(5, 6)]] false fsPickleEmpty).points = [[(5, 6)]] ∧
      (select_points (some "route.pkl") [[(5, 6)]] false fsPickleEmpty).fs = fsPickleEmpty) :=
  ⟨(C5_select_points_persistence "route.pkl" [] true fsPickleLoaded).1
      [[(1, 2), (3, 4)]] (by decide),
   (C5_select_points_persistence "route.pkl" [[(5, 6)]] true fsPickleCorrupt).2.1
      (by decide),
   (C5_select_points_persistence "route.pkl" [[(5, 6)]] false fsPickleEmpty).2.2
      (Or.inl rfl) rfl (by decide)⟩

/-- Claim C6: saving a nonempty polyline list through the select_points save
step stores exactly that list at the path, and a second select_points call
with the same path returns it verbatim without running a session. -/
theorem C6_save_load_roundtrip (name : String) (session session2 : List Polyline)
    (saveOk2 : Bool) (fs : PickleFS) (hmiss : fs name = none) (hne : session ≠ []) :
    (select_points (some name) session true fs).fs name = some (some session) ∧
    select_points (some name) session2 saveOk2
        ((select_points (some name) session true fs).fs) =
      { points := session, fs := (select_points (some name) session true fs).fs,
        ranSession := false, loadDiagnostic := false, saveDiagnostic := false } := by
  have hemp : session.isEmpty = false := by
    simp [List.isEmpty_iff, hne]
  have h1 : select_points (some name) session true fs =
      { points := session, fs := pickleUpdate fs name session, ranSession := true,
        loadDiagnostic := false, saveDiagnostic := false } := by
    rw [select_points, hmiss]
    simp [sessionAndSave, hemp]
  have hfs : (select_points (some name) session true fs).fs =
      pickleUpdate fs name session := by
    rw [h1]
  have h2 : pickleUpdate fs name session name = some (some session) := by
    rw [pickleUpdate]
    simp
  rw [hfs]
  exact ⟨h2, by rw [select_points, h2]⟩

/-- Claim C6 witness: a concrete save then reload. -/
theorem C6_witness :
    (select_points (some "route.pkl") [[(1, 2)]] true fsPickleEmpty).fs "route.pkl"
        = some (some [[(1, 2)]]) ∧
    select_points (some "route.pkl") [[(9, 9)]] false
        ((select_points (some "route.pkl") [[(1, 2)]] true fsPickleEmpty).fs) =
      { points := [[(1, 2)]],
        fs := (select_points (some "route.pkl") [[(1, 2)]] true fsPickleEmpty).fs,
        ranSession := false, loadDiagnostic := false, saveDiagnostic := false } :=
  C6_save_load_roundtrip "route.pkl" [[(1, 2)]] [[(9, 9)]] false fsPickleEmpty
    rfl (by decide)

/-- Claim C7: closing the display finalizes a nonempty in-progress line into
the finished lines and get_result returns the finished lines including it;
with an empty in-progress line the result is exactly the finished lines. -/
theorem C7_on_close_finalizes (s : PointSelector) :
    (s.current_line ≠ [] →
      (PointSelector.on_close s).get_result =
        some (s.selected_points ++ [s.current_line])) ∧
    (s.current_line = [] →
      (PointSelector.on_close s).get_result = some s.selected_points) := by
  constructor
  · intro h
    rw [PointSelector.on_close, PointSelector.get_result]
    simp [List.isEmpty_iff, h]
  · intro h
    rw [PointSelector.on_close, PointSelector.get_result]
    simp [h]

/-- Claim C7 witness at a state with a nonempty and an empty current line. -/
theorem C7_witness :
    (PointSelector.on_close ⟨[[(1, 2)]], [(3, 4)], 1, none⟩).get_result
        = some [[(1, 2)], [(3, 4)]] ∧
    (PointSelector.on_close ⟨[[(1, 2)]], [], 1, none⟩).get_result
        = some [[(1, 2)]] :=
  ⟨(C7_on_close_finalizes ⟨[[(1, 2)]], [(3, 4)], 1, none⟩).1 (by decide),
   (C7_on_close_finalizes ⟨[[(1, 2)]], [], 1, none⟩).2 rfl⟩

/-- Claim C8: finishing an empty current line changes nothing: the selector
state is returned unchanged, so no empty polyline is appended, the current
line stays empty and the line index is unchanged. -/
theorem C8_finish_line_noop (s : PointSelector) (h : s.current_line = []) :
    PointSelector.finish_line s = s := by
  rw [PointSelector.finish_line]
  simp [h]

/-- Claim C8 witness at a concrete state. -/
theorem C8_witness :
    PointSelector.finish_line ⟨[[(1, 2)]], [], 3, none⟩ = ⟨[[(1, 2)]], [], 3, none⟩ :=
  C8_finish_line_noop ⟨[[(1, 2)]], [], 3, none⟩ rfl

/-- Claim C1: for every group whose cache file exists, the stored dataset is
returned verbatim with the file system untouched and the ray-tracer sweep
never invoked (computeCount 0); and after any successful call, calling again
with the same groups and location performs no recomputation and returns the
same results. -/
theorem C1_cache_hit_no_recompute (c : PhaseLookupCalculator)
    (tracer : List String → List ℚ → ℚ → ℚ → List Arrival)
    (pgs : List (String × List String)) (fs : String → Option Dataset) :
    (∀ rs, loadAll c fs pgs = some rs →
      c.call tracer pgs fs = .ok { results := rs, fs := fs, computeCount := 0 }) ∧
    (∀ out, c.call tracer pgs fs = .ok out →
      c.call tracer pgs out.fs =
        .ok { results := out.results, fs := out.fs, computeCount := 0 }) := by
  constructor
  · intro rs h
    exact loadAll_call tracer pgs fs rs h
  · intro out h
    exact call_replay tracer pgs fs out out.fs h
      (call_results_in_fs tracer pgs fs out h)

/-- Claim C1 witness: a cache hit returns the stored dataset without
computing, and a second call after a computing first call recomputes
nothing. -/
theorem C1_witness :
    cCache.call trCache pgsCache fsCacheHit =
      .ok { results := [("p", dsCache)], fs := fsCacheHit, computeCount := 0 } ∧
    cCache.call trCache pgsCache outCache.fs =
      .ok { results := outCache.results, fs := outCache.fs, computeCount := 0 } :=
  ⟨(C1_cache_hit_no_recompute cCache trCache pgsCache fsCacheHit).1
      [("p", dsCache)] (by decide),
   (C1_cache_hit_no_recompute cCache trCache pgsCache fsEmpty).2 outCache (by rfl)⟩

/-- Claim C10 counterexample: the coordinates 0.001 and -0.001 agree after
two-decimal rounding (both round to zero), the data directories agree, yet
the filenames differ, because Python formats the negative value as -0.00. -/
theorem C10_counterexample :
    round2 cSignedZero.lat = round2 cSignedZeroNeg.lat ∧
    round2 cSignedZero.lon = round2 cSignedZeroNeg.lon ∧
    cSignedZero.data_dir = cSignedZeroNeg.data_dir ∧
    cSignedZero.filename "p" ≠ cSignedZeroNeg.filename "p" := by
  refine ⟨by decide, by decide, rfl, by decide⟩

/-- Claim C10 as amended: two calculators whose coordinates have identical
two-decimal formatted strings (rounded values and signs agree) and the same
data directory produce identical filenames for every group, and a dataset
cached under one calculator is loaded and returned verbatim by the
other, with no constraint relating their exact coordinates or grid axes. -/
theorem C10_format_equal_shared_cache (c1 c2 : PhaseLookupCalculator) (g : String)
    (hlat : fmt2 c1.lat = fmt2 c2.lat) (hlon : fmt2 c1.lon = fmt2 c2.lon)
    (hdir : c1.data_dir = c2.data_dir) :
    c1.filename g = c2.filename g ∧
    ∀ (tracer : List String → List ℚ → ℚ → ℚ → List Arrival) (ph : List String)
      (d : Dataset) (fs : String → Option Dataset),
      fs (c1.filename g) = some d →
      c2.call tracer [(g, ph)] fs =
        .ok { results := [(g, d)], fs := fs, computeCount := 0 } := by
  have hfn : c1.filename g = c2.filename g := by
    rw [PhaseLookupCalculator.filename, PhaseLookupCalculator.filename,
      hlat, hlon, hdir]
  refine ⟨hfn, ?_⟩
  intro tracer ph d fs hfs
  rw [hfn] at hfs
  rw [PhaseLookupCalculator.call, hfs]
  rfl

/-- Claim C10 amended witness: the calculators cRoundA and cRoundB have
different exact latitudes and different grid axes, format equally, and the
dataset cached under the first filename is served to the second. -/
theorem C10_witness :
    cRoundA.filename "p" = cRoundB.filename "p" ∧
    cRoundB.call trCache [("p", ["p"])] fsRoundCache =
      .ok { results := [("p", dsCache)], fs := fsRoundCache, computeCount := 0 } :=
  ⟨(C10_format_equal_shared_cache cRoundA cRoundB "p" (by decide) (by decide) rfl).1,
   (C10_format_equal_shared_cache cRoundA cRoundB "p" (by decide) (by decide) rfl).2
      trCache ["p"] dsCache fsRoundCache (by decide)⟩

/-- Claim C4: a pair for which the tracer returns no arrivals at all raises
the caught missing-key condition, its whole slice keeps the NaN fill, and
the computation continues over the remaining pairs and succeeds whenever
every pair's slice assignment goes through. -/
theorem C4_empty_pair_no_failure (c : PhaseLookupCalculator)
    (tracer : List ℚ → ℚ → ℚ → List Arrival) (ri si : Nat) (rd sd : ℚ)
    (hr : c.receiver_depth_grid[ri]? = some rd)
    (hs : c.source_depth_grid[si]? = some sd)
    (hempty : tracer (c.distance_grid.map (fun x => qmul x m2d)) sd rd = [])
    (hrest : ∀ rd2 ∈ c.receiver_depth_grid, ∀ sd2 ∈ c.source_depth_grid,
      exOk (pairSlice c.distance_grid.length
        (tracer (c.distance_grid.map (fun x => qmul x m2d)) sd2 rd2)) = true) :
    ∃ ds, c.calculate_lookup tracer = .ok ds ∧
      ∀ j : Nat, j < c.distance_grid.length → ds.cell ri j si = some none := by
  have hex : ∀ rd2 ∈ c.receiver_depth_grid,
      ∃ A, mapExcept (fun sd2 => pairSlice c.distance_grid.length
        (tracer (c.distance_grid.map (fun x => qmul x m2d)) sd2 rd2))
        c.source_depth_grid = .ok A := by
    intro rd2 hrd2
    refine mapExcept_ok_of_forall _ _ ?_
    intro sd2 hsd2
    have := hrest rd2 hrd2 sd2 hsd2
    cases hv : pairSlice c.distance_grid.length
        (tracer (c.distance_grid.map (fun x => qmul x m2d)) sd2 rd2) with
    | error e => rw [hv] at this; simp [exOk] at this
    | ok sl => exact ⟨sl, rfl⟩
  obtain ⟨slices, hsl⟩ := mapExcept_ok_of_forall _ _ hex
  refine ⟨_, by rw [PhaseLookupCalculator.calculate_lookup, hsl], ?_⟩
  intro j hj
  obtain ⟨A, hA, hinner⟩ := mapExcept_ok_getElem _ _ slices hsl ri rd hr
  obtain ⟨sl, hsl2, hps⟩ := mapExcept_ok_getElem _ _ A hinner si sd hs
  rw [hempty, pairSlice] at hps
  injection hps with hps
  subst hps
  show ((slices[ri]?).bind (fun a => a[si]?)).bind (fun v => v[j]?) = some none
  rw [hA]
  simp only [Option.some_bind]
  rw [hsl2]
  simp only [Option.some_bind]
  exact replicate_getElem_lt none c.distance_grid.length j hj

/-- Claim C4 witness: the (0, 5) pair has no arrivals, the (0, 6) pair has
one; the computation succeeds and the empty pair's cells are all NaN. -/
theorem C4_witness :
    ∃ ds, cEmptyPair.calculate_lookup trEmptyPair = .ok ds ∧
      ∀ j : Nat, j < cEmptyPair.distance_grid.length → ds.cell 0 j 0 = some none :=
  C4_empty_pair_no_failure cEmptyPair trEmptyPair 0 0 0 5
    (by decide) (by decide) (by decide) (by decide)

/-- Claim C9: every incidence angle written into a returned dataset is the
tracer-reported incidence angle of one of that pair's arrivals reduced
modulo 180, and therefore lies in the half-open interval from 0 to 180. -/
theorem C9_incidence_in_range (c : PhaseLookupCalculator)
    (tracer : List ℚ → ℚ → ℚ → List Arrival) (ds : Dataset)
    (hok : c.calculate_lookup tracer = .ok ds)
    (ri j si : Nat) (r : Row)
    (hcell : ds.cell ri j si = some (some r)) :
    (0 ≤ r.incidence_angle ∧ r.incidence_angle < 180) ∧
    ∃ rd sd a, c.receiver_depth_grid[ri]? = some rd ∧
      c.source_depth_grid[si]? = some sd ∧
      a ∈ tracer (c.distance_grid.map (fun x => qmul x m2d)) sd rd ∧
      r.incidence_angle = pymod a.incidence 180 := by
  obtain ⟨rd, sd, sl, hrd, hsd, hps, hj⟩ := calculate_lookup_cell hok hcell
  have hmem := pairSlice_ok_cell hps hj
  have hrows := dfSelect_subset hmem
  obtain ⟨a, ha, hmk⟩ := List.mem_map.mp hrows
  have hinc : r.incidence_angle = pymod a.incidence 180 := by
    rw [← hmk]
    rfl
  refine ⟨?_, rd, sd, a, hrd, hsd, ha, hinc⟩
  rw [hinc]
  have h180 : (0 : ℚ) < 180 := by norm_num
  exact pymod_bounds h180 a.incidence

/-- Claim C9 witness at the concrete broadcast dataset. -/
theorem C9_witness :
    (0 ≤ rowOneOfTwo.incidence_angle ∧ rowOneOfTwo.incidence_angle < 180) ∧
    ∃ rd sd a, cOneOfTwo.receiver_depth_grid[0]? = some rd ∧
      cOneOfTwo.source_depth_grid[0]? = some sd ∧
      a ∈ trOneOfTwo (cOneOfTwo.distance_grid.map (fun x => qmul x m2d)) sd rd ∧
      rowOneOfTwo.incidence_angle = pymod a.incidence 180 :=
  C9_incidence_in_range cOneOfTwo trOneOfTwo dsOneOfTwo (by decide) 0 0 0
    rowOneOfTwo (by decide)

/-- Supporting analysis for claim C3, the aligned special case: when the
distinct arrival distances of a pair are exactly the distance grid (in
sorted order), the cell for a grid distance holds one full row (all four
quantities from the same arrival) whose arrival time is minimal among that
distance's rows, and which is the first such row in tracer order.  Outside
this regime the positional slice assignment breaks the per-distance
property; see the claim C3 theorem below. -/
theorem aligned_min_time_per_distance (c : PhaseLookupCalculator)
    (tracer : List ℚ → ℚ → ℚ → List Arrival) (ds : Dataset)
    (hok : c.calculate_lookup tracer = .ok ds)
    (ri si j : Nat) (rd sd d : ℚ)
    (hr : c.receiver_depth_grid[ri]? = some rd)
    (hs : c.source_depth_grid[si]? = some sd)
    (hd : c.distance_grid[j]? = some d)
    (halign : sortedKeys ((rowsFor tracer c sd rd).map Row.distance) = c.distance_grid) :
    ∃ r, ds.cell ri j si = some (some r) ∧
      r ∈ rowsAt tracer c sd rd d ∧
      (∀ s2 ∈ rowsAt tracer c sd rd d, r.arrival_time ≤ s2.arrival_time) ∧
      ∃ i : Nat, (rowsAt tracer c sd rd d)[i]? = some r ∧
        ∀ (k : Nat) (x : Row), k < i → (rowsAt tracer c sd rd d)[k]? = some x →
          r.arrival_time < x.arrival_time := by
  rw [PhaseLookupCalculator.calculate_lookup] at hok
  cases hms : mapExcept (fun rec_depth =>
      mapExcept (fun src_depth => pairSlice c.distance_grid.length
          (tracer (c.distance_grid.map (fun x => qmul x m2d)) src_depth rec_depth))
        c.source_depth_grid)
      c.receiver_depth_grid with
  | error e => rw [hms] at hok; cases hok
  | ok slices =>
  rw [hms] at hok
  injection hok with hok
  subst hok
  obtain ⟨A, hA, hinner⟩ := mapExcept_ok_getElem _ _ slices hms ri rd hr
  obtain ⟨sl, hslA, hps⟩ := mapExcept_ok_getElem _ _ A hinner si sd hs
  have hdmem : d ∈ c.distance_grid := mem_of_getElemOpt hd
  have hdkeys : d ∈ sortedKeys ((rowsFor tracer c sd rd).map Row.distance) := by
    rw [halign]; exact hdmem
  have hdist : d ∈ (rowsFor tracer c sd rd).map Row.distance := mem_sortedKeys.mp hdkeys
  have hgrpne : ∀ dk ∈ (rowsFor tracer c sd rd).map Row.distance,
      (rowsFor tracer c sd rd).filter (fun q => decide (q.distance = dk)) ≠ [] := by
    intro dk hdk
    obtain ⟨row0, hrow0, hdist0⟩ := List.mem_map.mp hdk
    intro hnil
    have hin : row0 ∈ (rowsFor tracer c sd rd).filter (fun q => decide (q.distance = dk)) :=
      List.mem_filter.mpr ⟨hrow0, decide_eq_true hdist0⟩
    rw [hnil] at hin
    simp at hin
  have hallsome : ∀ dk ∈ sortedKeys ((rowsFor tracer c sd rd).map Row.distance),
      ((fun dk2 => idxminRow ((rowsFor tracer c sd rd).filter
        (fun q => decide (q.distance = dk2)))) dk).isSome = true := by
    intro dk hdk
    obtain ⟨r0, hr0⟩ := idxminRow_isSome (hgrpne dk (mem_sortedKeys.mp hdk))
    show (idxminRow ((rowsFor tracer c sd rd).filter
      (fun q => decide (q.distance = dk)))).isSome = true
    rw [hr0]
    rfl
  obtain ⟨hlen, hidx⟩ := filterMap_all_some
    (fun dk2 => idxminRow ((rowsFor tracer c sd rd).filter
      (fun q => decide (q.distance = dk2))))
    (sortedKeys ((rowsFor tracer c sd rd).map Row.distance)) hallsome
  have hlen2 : (dfSelect (rowsFor tracer c sd rd)).length = c.distance_grid.length := by
    rw [dfSelect, hlen, halign]
  have hrowsne : rowsFor tracer c sd rd ≠ [] := by
    intro hnil
    rw [hnil] at hdist
    simp at hdist
  cases harr : tracer (c.distance_grid.map (fun x => qmul x m2d)) sd rd with
  | nil =>
    exact absurd (by rw [rowsFor, harr]; rfl) hrowsne
  | cons a rest =>
  have hmapeq : (a :: rest).map mkRow = rowsFor tracer c sd rd := by
    rw [rowsFor, harr]
  rw [harr, pairSlice, hmapeq, if_pos hlen2] at hps
  injection hps with hps
  subst hps
  have hkey : (sortedKeys ((rowsFor tracer c sd rd).map Row.distance))[j]? = some d := by
    rw [halign]; exact hd
  have hselj : (dfSelect (rowsFor tracer c sd rd))[j]? =
      idxminRow ((rowsFor tracer c sd rd).filter (fun q => decide (q.distance = d))) := by
    rw [dfSelect]
    exact hidx j d hkey
  obtain ⟨r, hr2⟩ := idxminRow_isSome (hgrpne d hdist)
  rw [idxminRow] at hr2
  obtain ⟨hp, i, hi, hfirst⟩ := find?_eq_some_spec _ _ r hr2
  have hrmem : r ∈ (rowsFor tracer c sd rd).filter (fun q => decide (q.distance = d)) :=
    List.mem_of_find?_eq_some hr2
  have hmin : ∀ s2 ∈ (rowsFor tracer c sd rd).filter (fun q => decide (q.distance = d)),
      r.arrival_time ≤ s2.arrival_time := by
    intro s2 hs2
    exact of_decide_eq_true (List.all_eq_true.mp hp s2 hs2)
  refine ⟨r, ?_, ?_, ?_, i, ?_, ?_⟩
  · show ((slices[ri]?).bind (fun a0 => a0[si]?)).bind (fun v => v[j]?) = some (some r)
    rw [hA]
    simp only [Option.some_bind]
    rw [hslA]
    simp only [Option.some_bind]
    rw [List.getElem?_map, hselj, idxminRow, hr2]
    rfl
  · rw [rowsAt]
    exact hrmem
  · rw [rowsAt]
    exact hmin
  · rw [rowsAt]
    exact hi
  · intro k x hk hx
    rw [rowsAt] at hx
    have hpx := hfirst k x hk hx
    have hxmem : x ∈ (rowsFor tracer c sd rd).filter (fun q => decide (q.distance = d)) :=
      mem_of_getElemOpt hx
    have hnot : ¬ ∀ s2 ∈ (rowsFor tracer c sd rd).filter
        (fun q => decide (q.distance = d)), x.arrival_time ≤ s2.arrival_time := by
      intro hall
      have : ((rowsFor tracer c sd rd).filter (fun q => decide (q.distance = d))).all
          (fun s2 => decide (x.arrival_time ≤ s2.arrival_time)) = true :=
        List.all_eq_true.mpr (fun s2 hs2 => decide_eq_true (hall s2 hs2))
      rw [hpx] at this
      cases this
    push_neg at hnot
    obtain ⟨s2, hs2, hlt⟩ := hnot
    exact lt_of_le_of_lt (hmin s2 hs2) hlt

/-- Example of the aligned special case: two arrivals at distance 100 with
times 5 and 3 and one at distance 200; the cell for distance 100 holds the
time-3 row. -/
theorem aligned_min_time_example :
    ∃ r, dsMinSel.cell 0 0 0 = some (some r) ∧
      r ∈ rowsAt trMinSel cMinSel 50 0 100 ∧
      (∀ s2 ∈ rowsAt trMinSel cMinSel 50 0 100, r.arrival_time ≤ s2.arrival_time) ∧
      ∃ i : Nat, (rowsAt trMinSel cMinSel 50 0 100)[i]? = some r ∧
        ∀ (k : Nat) (x : Row), k < i → (rowsAt trMinSel cMinSel 50 0 100)[k]? = some x →
          r.arrival_time < x.arrival_time :=
  aligned_min_time_per_distance cMinSel trMinSel dsMinSel (by decide) 0 0 0 0 50 100
    (by decide) (by decide) (by decide) (by decide)

/-- Claim C3 (code bug): the claim states that the cell of every distance
with at least one arrival receives the minimum-arrival-time arrival for that
distance; the code instead writes the distance-sorted selected rows
positionally across the whole slice, assuming they align with the grid.
With the ascending grid [1000, 2000] and arrivals at distances 500 (time 9)
and 1000 (time 3), the cell for grid distance 1000 — whose minimum arrival
time is 3 — receives the distance-500 time-9 row; with the descending grid
[2000, 1000] and one arrival at each grid distance, the first cell (grid
distance 2000) receives the distance-1000 row. -/
theorem C3_code_divergence :
    (cMisaligned.calculate_lookup trMisaligned = .ok dsMisaligned ∧
      cMisaligned.distance_grid[0]? = some 1000 ∧
      dsMisaligned.cell 0 0 0 = some (some (mkRow (arrAt 500 9 10 20 1))) ∧
      (mkRow (arrAt 500 9 10 20 1)).distance = 500 ∧
      (mkRow (arrAt 500 9 10 20 1)).arrival_time = 9 ∧
      arrAt 1000 3 30 40 2 ∈ trMisaligned
        (cMisaligned.distance_grid.map (fun x => qmul x m2d)) 500 0 ∧
      (mkRow (arrAt 1000 3 30 40 2)).distance = 1000 ∧
      (mkRow (arrAt 1000 3 30 40 2)).arrival_time = 3) ∧
    (cSwapped.calculate_lookup trSwapped = .ok dsSwapped ∧
      cSwapped.distance_grid[0]? = some 2000 ∧
      dsSwapped.cell 0 0 0 = some (some (mkRow (arrAt 1000 6 30 40 2))) ∧
      (mkRow (arrAt 1000 6 30 40 2)).distance = 1000) := by
  refine ⟨⟨?_, ?_, ?_, ?_, ?_, ?_, ?_, ?_⟩, ?_, ?_, ?_, ?_⟩ <;> decide
